import Mathlib

/-!
Shallow embedding of the misaka client agent (src/app.js and
src/utils/log_scanner.js) together with proofs about its Log Scanner and
Connection Manager.  Machine integers of the JS source are modelled as `Nat`
(byte counts, sizes, offsets) and `Int` (millisecond timestamps); fallible
operations return `Except Unit`; the in-place mutation of the JS objects is
made explicit state passing.
-/

namespace Misaka

/-- MAX_FILE_READ_SIZE from log_scanner.js line 14: 256 * 1024 bytes. -/
def MAX_FILE_READ_SIZE : Nat := 256 * 1024

/-- LogFileState: the per-path record stored in `this._stats` of the scanner
(log_scanner.js lines 187-191): fresh stat size, fresh stat mtime (coerced to
a number by `+stat.mtime`, modelled as `Int`), and the read offset. -/
structure FileStat where
  size : Nat
  mtime : Int
  offset : Nat
deriving DecidableEq, Repr

/-- Outcome of `fs.statSync(log)` followed by the `stat.isFile()` check in
the monitor loop (log_scanner.js lines 170-175): the call may throw, the
path may not be a regular file, or it yields a size and mtime. -/
inductive StatResult where
  | statError
  | notFile
  | ok (size : Nat) (mtime : Int)
deriving DecidableEq, Repr

/-- Association-list lookup modelling a JS object property read
(`stats[log]`, yielding `undefined` when absent). -/
def lookup {β : Type} : List (String × β) → String → Option β
  | [], _ => none
  | (k, v) :: rest, key => if k = key then some v else lookup rest key

/-- Association-list store modelling a JS object property assignment
(`stats[log] = ...`, adding the key when absent). -/
def update {β : Type} : List (String × β) → String → β → List (String × β)
  | [], key, v => [(key, v)]
  | (k, w) :: rest, key, v =>
    if k = key then (k, v) :: rest else (k, w) :: update rest key v

/-- Detection step for one watched path, from the body of the `_.each`
callback in the monitor loop (log_scanner.js lines 168-199).  Input: the
stored state (`stats[log] || {offset: 0}`) and the fresh stat result.
Output: the entry to store into `stats` (`none` on the early returns, which
leave the stored entry untouched) and whether the path is pushed onto
`changedLogs` (`stat.size > prev.offset` after the possible truncation
reset). -/
def detectOne (prev? : Option FileStat) (st : StatResult) :
    Option FileStat × Bool :=
  match st with
  | .statError => (none, false)
  | .notFile => (none, false)
  | .ok size mtime =>
    match prev? with
    | some prev =>
      -- 文件没有变化: prev.size === stat.size && +prev.mtime === +stat.mtime
      if prev.size = size ∧ prev.mtime = mtime then (none, false)
      else
        -- 文件被 truncate 过: if (prev.offset && prev.offset > stat.size)
        let off := if prev.offset ≠ 0 ∧ size < prev.offset then 0 else prev.offset
        (some ⟨size, mtime, off⟩, decide (off < size))
    | none =>
      -- prev = {offset: 0}: the size/mtime comparison with undefined fails,
      -- the truncation guard is falsy on offset 0
      (some ⟨size, mtime, 0⟩, decide (0 < size))

/-- Detection pass over all watched paths (the `_.each(logs, ...)` loop of
the monitor, log_scanner.js lines 168-199): threads the stats object through
each per-path step and collects `changedLogs` in iteration order. -/
def detectAll (fsStat : String → StatResult) :
    List String → List (String × FileStat) →
    List (String × FileStat) × List String
  | [], stats => (stats, [])
  | log :: rest, stats =>
    let step := detectOne (lookup stats log) (fsStat log)
    let stats' := match step.1 with
      | some s => update stats log s
      | none => stats
    let next := detectAll fsStat rest stats'
    (next.1, (if step.2 then [log] else []) ++ next.2)

/-- Registry portion of the scanner state used by addLog/removeLog
(log_scanner.js lines 69-116): the watched list `this._logs`, whether a
brain (Persistent State Adapter) is bound, its key, and the sequence of
`brain.set` calls issued (write-through log). -/
structure ScannerReg where
  logs : List String
  brainBound : Bool
  brainKey : String
  brainWrites : List (String × List String)
deriving DecidableEq, Repr

/-- addLog from log_scanner.js lines 69-82: ignore a duplicate, else push
the path; when a brain is bound, also write the list through it. -/
def addLog (st : ScannerReg) (log : String) : ScannerReg :=
  if log ∈ st.logs then st
  else
    let st := {st with logs := st.logs ++ [log]}
    if st.brainBound then
      {st with brainWrites := st.brainWrites ++ [(st.brainKey ++ "/logs", st.logs)]}
    else st

/-- removeLog from log_scanner.js lines 88-103, translated exactly: `len`
is taken from `this._logs` before filtering, `logs` is the filtered copy,
and the brain branch compares `len !== this._logs.length` — the length of
the still-unfiltered stored array. -/
def removeLog (st : ScannerReg) (log : String) : ScannerReg :=
  let len := st.logs.length
  let logs := st.logs.filter (fun l => l ≠ log)
  if st.brainBound then
    if len ≠ st.logs.length then
      {st with brainWrites := st.brainWrites ++ [(st.brainKey ++ "/logs", logs)]}
    else st
  else
    {st with logs := logs}

/-- removeAllLogs from log_scanner.js lines 108-116. -/
def removeAllLogs (st : ScannerReg) : ScannerReg :=
  if st.brainBound then
    {st with brainWrites := st.brainWrites ++ [(st.brainKey ++ "/logs", [])]}
  else
    {st with logs := []}

/-- Timer portion of the scanner state (`this._timer`), with a counter
supplying fresh handles for each `setTimeout` call. -/
structure TimerState where
  timer : Option Nat
  nextHandle : Nat
deriving DecidableEq, Repr

/-- started() from log_scanner.js lines 121-123: `!!this._timer`. -/
def started (s : TimerState) : Bool := s.timer.isSome

/-- Scheduling effect of monitor() from log_scanner.js lines 157-163: if a
timer is already pending do nothing, otherwise arm a fresh timer. -/
def monitorSchedule (s : TimerState) : TimerState :=
  match s.timer with
  | some _ => s
  | none => ⟨some s.nextHandle, s.nextHandle + 1⟩

/-- stop() from log_scanner.js lines 56-63: clearTimeout (a no-op on a
handle that has already fired) and null out `this._timer`. -/
def stopScanner (s : TimerState) : TimerState := ⟨none, s.nextHandle⟩

/-- start() from log_scanner.js lines 44-51: a no-op when started, else
monitor(). -/
def startScanner (s : TimerState) : TimerState :=
  if started s then s else monitorSchedule s

/-- Completion of an in-flight scan cycle (log_scanner.js lines 227-228 and
202-203): `me._timer = null; me.monitor();` — executed unconditionally at
the end of the cycle, in both the no-change branch and the scanLogs
callback. -/
def cycleComplete (s : TimerState) : TimerState :=
  monitorSchedule ⟨none, s.nextHandle⟩

/-- Model of `fs.read(fd, buffer, 0, size, position, cb)` from the readAll
loop: each call is answered by an oracle from (call number, position,
requested byte count) to either an error or the bytes written into the
buffer.  fs.read never writes more than the requested count, so the bytes
are truncated to the request; bytes are modelled as `Nat`. -/
def ReadOracle : Type := Nat → Nat → Nat → Except Unit (List Nat)

/-- readAll from log_scanner.js lines 291-317, the chunked read loop: while
`stat.size - stat.offset` is nonzero, read `min(delta, MAX_FILE_READ_SIZE)`
bytes at `stat.offset`; on error report it (the offset keeps the advances
already made); on a 0-byte read stop with the output so far; otherwise
append the whole buffer (`output += buffer.toString()` converts the entire
allocated buffer, whose bytes past the read count are modelled as 0) and
advance `stat.offset` by the bytes read before looping.  The JS recursion
terminates because every continuing iteration advances the offset by at
least one byte; the structural `fuel` argument mirrors that bound: it is
an upper bound on the remaining delta, so the `fuel = 0` branch coincides
with the loop's own `!size` exit whenever `fuel ≥ stat.size - stat.offset`
at entry, which the wrapper `readAll` below establishes. -/
def readAllF (oracle : ReadOracle) :
    Nat → Nat → FileStat → List Nat → FileStat × Except Unit (List Nat)
  | 0, _, stat, output => (stat, .ok output)
  | fuel + 1, callIdx, stat, output =>
    let size := stat.size - stat.offset
    if size = 0 then (stat, .ok output)
    else
      let req := min size MAX_FILE_READ_SIZE
      match oracle callIdx stat.offset req with
      | .error _ => (stat, .error ())
      | .ok raw =>
        let bytes := raw.take req
        if bytes.length = 0 then (stat, .ok output)
        else
          let buffer := bytes ++ List.replicate (req - bytes.length) 0
          readAllF oracle fuel (callIdx + 1)
            {stat with offset := stat.offset + bytes.length} (output ++ buffer)

/-- readAll entry point: the loop starts with the full remaining delta as
its fuel bound. -/
def readAll (oracle : ReadOracle) (callIdx : Nat) (stat : FileStat)
    (output : List Nat) : FileStat × Except Unit (List Nat) :=
  readAllF oracle (stat.size - stat.offset) callIdx stat output

/-- Read oracle of a file whose on-disk content is `content`: every read
succeeds and returns the bytes at the requested position, as many as are
available up to the requested count. -/
def contentOracle (content : List Nat) : ReadOracle :=
  fun _ pos req => .ok ((content.drop pos).take req)

/-- scanLogs from log_scanner.js lines 239-289: walk the changed logs
sequentially; a missing stat or a failed open skips the path; a failed
readAll logs and skips the path but the stat object has already been
mutated in place (modelled by storing the returned state); a successful
read stores the output under the path in `files`.  `fsOpen` models
`fs.open`, yielding the file's read oracle or an error. -/
def scanLogs (fsOpen : String → Except Unit ReadOracle) :
    List String → List (String × FileStat) → List (String × List Nat) →
    List (String × FileStat) × List (String × List Nat)
  | [], stats, files => (stats, files)
  | log :: rest, stats, files =>
    match lookup stats log with
    | none => scanLogs fsOpen rest stats files
    | some stat =>
      match fsOpen log with
      | .error _ => scanLogs fsOpen rest stats files
      | .ok oracle =>
        let r := readAll oracle 0 stat []
        match r.2 with
        | .error _ =>
          scanLogs fsOpen rest (update stats log r.1) files
        | .ok output =>
          scanLogs fsOpen rest (update stats log r.1) (files ++ [(log, output)])

/-- Observable outcome of one fired scan cycle: the per-path stats as they
stand after the cycle, how many times the result callback was invoked, and
whether an exception it raised was caught (`cbThrew`), the batch passed to
scanLogs' continuation, and whether `me.monitor()` re-armed the loop. -/
structure CycleResult where
  stats : List (String × FileStat)
  callbackCount : Nat
  cbThrew : Bool
  batch : Option (List (String × List Nat))
  nextScheduled : Bool
deriving DecidableEq, Repr

/-- Body of the `setTimeout` callback in monitor (log_scanner.js lines
163-229): run the detection pass; with no changed logs, null the timer and
reschedule at once without touching the callback; otherwise scanLogs the
changed paths, commit the stats, invoke the consumer callback inside a
try/catch (an exception is logged and swallowed, recorded here as
`cbThrew`), then null the timer and reschedule.  The consumer callback is
modelled as possibly throwing via `Except`. -/
def runCycle (fsStat : String → StatResult)
    (fsOpen : String → Except Unit ReadOracle)
    (cb? : Option (List (String × List Nat) → Except Unit Unit))
    (logs : List String) (stats : List (String × FileStat)) : CycleResult :=
  let det := detectAll fsStat logs stats
  if det.2.isEmpty then
    ⟨det.1, 0, false, none, true⟩
  else
    let scanned := scanLogs fsOpen det.2 det.1 []
    match cb? with
    | none => ⟨scanned.1, 0, false, some scanned.2, true⟩
    | some cb =>
      match cb scanned.2 with
      | .ok _ => ⟨scanned.1, 1, false, some scanned.2, true⟩
      | .error _ => ⟨scanned.1, 1, true, some scanned.2, true⟩

/-- Entry of the Connection Manager's `this._sendingQueue` (app.js lines
31, 54-57, 68): `send` pushes its arguments array, `connect` pushes a
`null` sentinel. -/
inductive QEntry (α : Type) where
  | sentinel
  | msg (m : α)
deriving DecidableEq, Repr

/-- Connection Manager state relevant to queueing (app.js lines 28-33):
the pending queue, the `_sending` flush guard, the `_connected` flag, and
the ordered trace of `socket.emit` calls made so far. -/
structure ConnState (α : Type) where
  sendingQueue : List (QEntry α)
  sending : Bool
  connected : Bool
  emitted : List α
deriving DecidableEq, Repr

/-- send(channel, data, cb) from app.js lines 54-57: push the arguments
onto the queue (the flush it schedules is modelled by running `flushLoop`
afterwards). -/
def sendOp {α : Type} (st : ConnState α) (m : α) : ConnState α :=
  {st with sendingQueue := st.sendingQueue ++ [.msg m]}

/-- connect() from app.js lines 62-70: a no-op when already connected,
otherwise push the `null` sentinel and schedule a flush. -/
def connectOp {α : Type} (st : ConnState α) : ConnState α :=
  if st.connected then st
  else {st with sendingQueue := st.sendingQueue ++ [.sentinel]}

/-- Emission pass of one flush cycle (app.js lines 218-224): walk the
swapped-out queue in order, skip `null` sentinels, `socket.emit` every
message. -/
def emitQueue {α : Type} : List (QEntry α) → List α
  | [] => []
  | .sentinel :: rest => emitQueue rest
  | .msg m :: rest => m :: emitQueue rest

/-- flush from app.js lines 207-229: swap the queue for an empty one; if
it was empty clear the `_sending` flag and stop; otherwise login (which,
once the session connects, sets `_connected`), emit every non-null entry
in order, and recursively flush to drain anything enqueued meanwhile.  In
this model no producer runs during the flush, so each recursion sees the
queue it just emptied; the fuel bound `queue length + 1` set by the
`flushLoop` wrapper therefore always suffices, since a continuing
recursion starts from an emptied queue. -/
def flushLoopF {α : Type} : Nat → ConnState α → ConnState α
  | 0, st => st
  | fuel + 1, st =>
    let queue := st.sendingQueue
    let st1 : ConnState α := {st with sendingQueue := []}
    if queue.isEmpty then
      {st1 with sending := false}
    else
      flushLoopF fuel
        {st1 with connected := true, emitted := st1.emitted ++ emitQueue queue}

/-- flush entry point with its sufficient fuel bound. -/
def flushLoop {α : Type} (st : ConnState α) : ConnState α :=
  flushLoopF (st.sendingQueue.length + 1) st

/-- Calls a producer can make while no connection exists: `send` with a
message or `connect` (the ensure-connected sentinel). -/
inductive ClientOp (α : Type) where
  | send (m : α)
  | ensureConnected
deriving DecidableEq, Repr

/-- Apply a sequence of producer calls to the Connection Manager state. -/
def applyOps {α : Type} : ConnState α → List (ClientOp α) → ConnState α
  | st, [] => st
  | st, .send m :: rest => applyOps (sendOp st m) rest
  | st, .ensureConnected :: rest => applyOps (connectOp st) rest

/-- Fresh Connection Manager state (app.js lines 28-33): empty queue, not
sending, not connected, nothing emitted. -/
def initConn {α : Type} : ConnState α := ⟨[], false, false, []⟩

/-- Messages of a call sequence in call order, sentinels excluded. -/
def sentMsgs {α : Type} : List (ClientOp α) → List α
  | [] => []
  | .send m :: rest => m :: sentMsgs rest
  | .ensureConnected :: rest => sentMsgs rest

/-- Queue entries a call sequence pushes, in order. -/
def opEntries {α : Type} : List (ClientOp α) → List (QEntry α)
  | [] => []
  | .send m :: rest => .msg m :: opEntries rest
  | .ensureConnected :: rest => .sentinel :: opEntries rest

/-- Outcome of one HTTP POST (the `request.post` callbacks in app.js):
either a transport error (`err` truthy) or a response with a status code
and a body. -/
inductive HttpResult where
  | transportError
  | response (status : Nat) (body : String)
deriving DecidableEq, Repr

/-- Socket.io target built at app.js lines 178-182: the path-scoped
endpoint `/misaka` with the session token as query parameter, and the
`reconnection: false, multiplex: false` options. -/
structure SocketTarget where
  pathname : String
  token : String
  reconnection : Bool
  multiplex : Bool
deriving DecidableEq, Repr

/-- tryLogin from app.js lines 128-186: with a live socket, succeed with
it at once; otherwise POST /challenge (transport error or a status other
than 200 fails the attempt), take the body as the challenge, POST /login
with it (same failure handling), and on 200 open the socket to /misaka
carrying the login body as the token.  The remote service is modelled by
the challenge response and by the login response as a function of the
challenge submitted. -/
def tryLogin (socket? : Option SocketTarget) (challengeRes : HttpResult)
    (loginRes : String → HttpResult) : Except Unit SocketTarget :=
  match socket? with
  | some s => .ok s
  | none =>
    match challengeRes with
    | .transportError => .error ()
    | .response status body =>
      if status ≠ 200 then .error ()
      else
        let challenge := body
        match loginRes challenge with
        | .transportError => .error ()
        | .response status2 body2 =>
          if status2 ≠ 200 then .error ()
          else .ok ⟨"/misaka", body2, false, false⟩

/-! Theorems. -/

/-- C10: if stop() is called after a cycle's timer has fired but before the
cycle's read-and-callback phase completes, stop() leaves the scanner
reporting not-started; yet when the in-flight cycle completes it
unconditionally nulls the timer and calls monitor(), which re-arms the
timer, so scanning continues and started() reports true again without any
call to start(). -/
theorem stop_midcycle_rescheduled (s : TimerState) :
    started (stopScanner s) = false ∧
    started (cycleComplete (stopScanner s)) = true :=
  ⟨rfl, rfl⟩

/-- C2: with a persistence adapter (brain) bound, removeLog never performs
the write-through and never removes the path: the guard compares the
pre-filter length against the length of the same still-unfiltered stored
array, which is always equal, so the whole call is a no-op.  This
contradicts the documented behaviour (remove the path; write the reduced
set through the adapter) and the clear intent of the filtered copy the
code computes and then discards. -/
theorem removeLog_brain_never_writes (st : ScannerReg) (log : String)
    (h : st.brainBound = true) : removeLog st log = st := by
  simp [removeLog, h]

/-- Witness for removeLog_brain_never_writes: with the brain bound and "a"
watched, removeLog "a" changes nothing — no adapter write, path kept. -/
theorem removeLog_brain_never_writes_witness :
    removeLog ⟨["a"], true, "k", []⟩ "a" = ⟨["a"], true, "k", []⟩ :=
  removeLog_brain_never_writes ⟨["a"], true, "k", []⟩ "a" rfl

/-- C7: a single tryLogin attempt (no socket yet) fails exactly when the
challenge request or the login request suffers a transport error or a
non-200 status; when both return 200, it succeeds with a socket to the
path-scoped endpoint /misaka carrying the login response body as the
token, with reconnection and multiplexing disabled. -/
theorem tryLogin_outcome (ch : HttpResult) (L : String → HttpResult) :
    ((∃ e, tryLogin none ch L = .error e) ↔
      (ch = .transportError ∨
        ∃ s b, ch = .response s b ∧
          (s ≠ 200 ∨ L b = .transportError ∨
            ∃ s2 b2, L b = .response s2 b2 ∧ s2 ≠ 200))) ∧
    (∀ b b2, ch = .response 200 b → L b = .response 200 b2 →
      tryLogin none ch L = .ok ⟨"/misaka", b2, false, false⟩) := by
  constructor
  · cases ch with
    | transportError => simp [tryLogin]
    | response s b =>
      by_cases hs : s = 200
      · subst hs
        cases hL : L b with
        | transportError =>
          simp only [tryLogin, hL]
          simp
          exact ⟨200, b, ⟨rfl, rfl⟩, Or.inr (Or.inl hL)⟩
        | response s2 b2 =>
          by_cases hs2 : s2 = 200
          · subst hs2; simp [tryLogin, hL]
          · simp only [tryLogin, hL]
            simp [hs2]
            exact ⟨200, b, ⟨rfl, rfl⟩, Or.inr (Or.inr ⟨s2, ⟨b2, hL⟩, hs2⟩)⟩
      · simp only [tryLogin]
        simp [hs]
        exact ⟨s, b, ⟨rfl, rfl⟩, Or.inl hs⟩
  · intro b b2 hb hLb
    subst hb
    simp [tryLogin, hLb]

/-- Witness for tryLogin_outcome: a concrete attempt where both requests
return 200 opens the socket to /misaka with the login body as token. -/
theorem tryLogin_outcome_witness :
    tryLogin none (.response 200 "ch") (fun _ => .response 200 "tok") =
      .ok ⟨"/misaka", "tok", false, false⟩ :=
  (tryLogin_outcome (.response 200 "ch") (fun _ => .response 200 "tok")).2
    "ch" "tok" rfl rfl

/-- Applying producer calls while disconnected only appends the matching
entries to the queue, in call order. -/
theorem applyOps_queue {α : Type} (ops : List (ClientOp α)) (st : ConnState α)
    (h : st.connected = false) :
    applyOps st ops = {st with sendingQueue := st.sendingQueue ++ opEntries ops} := by
  induction ops generalizing st with
  | nil => simp [applyOps, opEntries]
  | cons op rest ih =>
    cases op with
    | send m =>
      simp only [applyOps]
      rw [ih (sendOp st m) (by simp [sendOp, h])]
      simp [sendOp, opEntries]
    | ensureConnected =>
      simp only [applyOps]
      rw [ih (connectOp st) (by simp [connectOp, h])]
      simp [connectOp, h, opEntries]

/-- The emission pass delivers exactly the sent messages in call order. -/
theorem emitQueue_opEntries {α : Type} (ops : List (ClientOp α)) :
    emitQueue (opEntries ops) = sentMsgs ops := by
  induction ops with
  | nil => rfl
  | cons op rest ih => cases op <;> simp [opEntries, emitQueue, sentMsgs, ih]

/-- One run of the flush drains the queue and appends the non-sentinel
entries, in order, to the emission trace. -/
theorem flushLoop_emitted {α : Type} (st : ConnState α) :
    (flushLoop st).emitted = st.emitted ++ emitQueue st.sendingQueue ∧
    (flushLoop st).sendingQueue = [] := by
  unfold flushLoop
  cases hq : st.sendingQueue with
  | nil => simp [flushLoopF, hq, emitQueue]
  | cons e es => simp [flushLoopF, hq]

/-- C4: for every sequence of send / ensure-connected calls made while no
connection exists, the flush performed once a connection is established
emits exactly the sent messages, in exactly the order the send calls were
made (so each exactly once), with the connect-only sentinels emitting
nothing; the queue ends empty. -/
theorem flush_emits_in_send_order {α : Type} (ops : List (ClientOp α)) :
    (flushLoop (applyOps initConn ops)).emitted = sentMsgs ops ∧
    (flushLoop (applyOps initConn ops)).sendingQueue = [] := by
  rw [applyOps_queue ops initConn rfl]
  have h := flushLoop_emitted
    ({initConn with sendingQueue := initConn.sendingQueue ++ opEntries ops} : ConnState α)
  simpa [initConn, emitQueue_opEntries] using h

/-- Every entry the detection step stores satisfies offset ≤ size: a reset
leaves offset 0, and a kept offset is either 0 or at most the fresh size. -/
theorem detectOne_stores_inv (prev? : Option FileStat) (st : StatResult)
    (s : FileStat) (b : Bool) (h : detectOne prev? st = (some s, b)) :
    s.offset ≤ s.size := by
  cases st with
  | statError => simp [detectOne] at h
  | notFile => simp [detectOne] at h
  | ok size mtime =>
    cases prev? with
    | none =>
      simp only [detectOne, Prod.mk.injEq, Option.some.injEq] at h
      obtain ⟨h1, -⟩ := h
      subst h1
      exact Nat.zero_le _
    | some prev =>
      by_cases hu : prev.size = size ∧ prev.mtime = mtime
      · simp [detectOne, hu] at h
      · simp only [detectOne, if_neg hu, Prod.mk.injEq, Option.some.injEq] at h
        obtain ⟨h1, -⟩ := h
        subst h1
        simp only []
        split
        · exact Nat.zero_le _
        · next hc => omega

/-- Lookup after an association-list store. -/
theorem lookup_update {β : Type} (l : List (String × β)) (k k' : String) (v : β) :
    lookup (update l k v) k' = if k = k' then some v else lookup l k' := by
  induction l with
  | nil => simp [update, lookup]
  | cons kv rest ih =>
    obtain ⟨k0, v0⟩ := kv
    by_cases h0 : k0 = k
    · subst h0
      by_cases h1 : k0 = k'
      · simp [update, lookup, h1]
      · simp [update, lookup, h1]
    · by_cases h1 : k0 = k'
      · subst h1
        have hk : ¬k = k0 := fun h => h0 h.symm
        simp [update, lookup, h0, hk]
      · simp [update, lookup, h0, h1, ih]

/-- The detection pass preserves the per-path invariant offset ≤ size:
entries it stores satisfy it outright, and entries it leaves alone carried
it already. -/
theorem detectAll_inv (fsStat : String → StatResult) (logs : List String) :
    ∀ (stats : List (String × FileStat)),
      (∀ p s, lookup stats p = some s → s.offset ≤ s.size) →
      ∀ p s, lookup (detectAll fsStat logs stats).1 p = some s →
        s.offset ≤ s.size := by
  induction logs with
  | nil => intro stats h p s hl; exact h p s (by simpa [detectAll] using hl)
  | cons log rest ih =>
    intro stats h p s hl
    simp only [detectAll] at hl
    cases hd : (detectOne (lookup stats log) (fsStat log)).1 with
    | none =>
      rw [hd] at hl
      exact ih stats h p s hl
    | some e =>
      rw [hd] at hl
      refine ih (update stats log e) ?_ p s hl
      intro p' s' hl'
      rw [lookup_update] at hl'
      by_cases hp : log = p'
      · rw [if_pos hp] at hl'
        cases hl'
        exact detectOne_stores_inv (lookup stats log) (fsStat log) e
          (detectOne (lookup stats log) (fsStat log)).2 (by rw [← hd])
      · rw [if_neg hp] at hl'
        exact h p' s' hl'

/-- C5: (1) whenever the stored offset of a watched file (which, by the
invariant the scanner maintains, is at most the stored size) exceeds the
freshly observed size, the detection step stores the fresh size and mtime
with the offset reset to 0 — so the subsequent read of that cycle starts
from the beginning of the file — and marks the file changed exactly when
it is non-empty; (2) after a whole detection pass, every per-path state
still satisfies offset ≤ size. -/
theorem detect_truncation_reset_and_invariant :
    (∀ (prev : FileStat) (size : Nat) (mtime : Int),
      prev.offset ≤ prev.size → size < prev.offset →
      detectOne (some prev) (.ok size mtime) =
        (some ⟨size, mtime, 0⟩, decide (0 < size))) ∧
    (∀ (fsStat : String → StatResult) (logs : List String)
      (stats : List (String × FileStat)),
      (∀ p s, lookup stats p = some s → s.offset ≤ s.size) →
      ∀ p s, lookup (detectAll fsStat logs stats).1 p = some s →
        s.offset ≤ s.size) := by
  constructor
  · intro prev size mtime hinv htrunc
    have hu : ¬(prev.size = size ∧ prev.mtime = mtime) := by
      rintro ⟨h1, -⟩; omega
    have hr : prev.offset ≠ 0 ∧ size < prev.offset := ⟨by omega, htrunc⟩
    simp only [detectOne, if_neg hu, if_pos hr]
  · exact fun fsStat logs => detectAll_inv fsStat logs

/-- Witness for detect_truncation_reset_and_invariant: a file stored as
size 5, offset 3 whose fresh stat shows size 2 has its offset reset to 0
and is marked changed; the stored entry after the pass keeps offset ≤
size. -/
theorem detect_truncation_reset_and_invariant_witness :
    detectOne (some ⟨5, 7, 3⟩) (.ok 2 9) = (some ⟨2, 9, 0⟩, true) ∧
    (FileStat.mk 2 9 0).offset ≤ (FileStat.mk 2 9 0).size := by
  constructor
  · exact detect_truncation_reset_and_invariant.1 ⟨5, 7, 3⟩ 2 9
      (by decide) (by decide)
  · refine detect_truncation_reset_and_invariant.2 (fun _ => .ok 2 9) ["a"]
      [("a", ⟨5, 7, 3⟩)] ?_ "a" ⟨2, 9, 0⟩ (by decide)
    intro p s hl
    simp only [lookup] at hl
    split at hl
    · cases hl; decide
    · cases hl

/-- Chunked-read loop on a file whose reads all succeed: given enough fuel
(at least the remaining delta, which bounds the number of iterations), the
loop returns the whole delta from offset to size as the concatenation of
its chunk reads, and leaves the offset at the file's size. -/
theorem readAllF_content (content : List Nat) :
    ∀ (fuel callIdx : Nat) (stat : FileStat) (out : List Nat),
      stat.offset ≤ stat.size → stat.size ≤ content.length →
      stat.size - stat.offset ≤ fuel →
      readAllF (contentOracle content) fuel callIdx stat out =
        ({stat with offset := stat.size},
         .ok (out ++ ((content.drop stat.offset).take (stat.size - stat.offset)))) := by
  intro fuel
  induction fuel with
  | zero =>
    intro callIdx stat out h1 h2 h3
    obtain ⟨sz, mt, off⟩ := stat
    simp only at h1 h2 h3 ⊢
    have he : off = sz := by omega
    subst he
    simp [readAllF]
  | succ fuel ih =>
    intro callIdx stat out h1 h2 h3
    obtain ⟨sz, mt, off⟩ := stat
    simp only at h1 h2 h3 ⊢
    by_cases hd : sz - off = 0
    · have he : off = sz := by omega
      subst he
      simp [readAllF]
    · have hmax : 0 < MAX_FILE_READ_SIZE := by norm_num [MAX_FILE_READ_SIZE]
      have hreq1 : 1 ≤ min (sz - off) MAX_FILE_READ_SIZE := by omega
      have hreqle : min (sz - off) MAX_FILE_READ_SIZE ≤ sz - off := Nat.min_le_left _ _
      have hslice :
          ((content.drop off).take (min (sz - off) MAX_FILE_READ_SIZE)).length =
            min (sz - off) MAX_FILE_READ_SIZE := by
        rw [List.length_take, List.length_drop]
        omega
      rw [readAllF]
      simp only [contentOracle, hd, if_false, ite_false]
      rw [List.take_of_length_le (le_of_eq hslice)]
      rw [if_neg (by omega : ¬((content.drop off).take
        (min (sz - off) MAX_FILE_READ_SIZE)).length = 0)]
      rw [hslice, Nat.sub_self, List.replicate_zero, List.append_nil]
      rw [ih (callIdx + 1) ⟨sz, mt, off + min (sz - off) MAX_FILE_READ_SIZE⟩
        (out ++ (content.drop off).take (min (sz - off) MAX_FILE_READ_SIZE))
        (by simp; omega) (by simpa using h2) (by simp; omega)]
      simp only [Prod.mk.injEq, Except.ok.injEq]
      refine ⟨trivial, ?_⟩
      rw [List.append_assoc]
      congr 1
      rw [show sz - (off + min (sz - off) MAX_FILE_READ_SIZE) =
            sz - off - min (sz - off) MAX_FILE_READ_SIZE from by omega]
      rw [← List.drop_drop (min (sz - off) MAX_FILE_READ_SIZE) off content]
      rw [← List.take_add]
      congr 1
      omega

/-- C3: for every watched file all of whose chunk reads succeed and return
the requested bytes (modelled by the content oracle of its on-disk bytes),
a single scan cycle's readAll returns the complete delta from the stored
offset to the stored size — the concatenation of its successive chunk
reads, each capped at MAX_FILE_READ_SIZE — and the stored offset ends
equal to the file's size.  This covers in particular every file whose
unread delta exceeds the maximum chunk size, where several chunk reads are
needed. -/
theorem readAll_full_delta (content : List Nat) (callIdx : Nat)
    (stat : FileStat) (out : List Nat)
    (h1 : stat.offset ≤ stat.size) (h2 : stat.size ≤ content.length) :
    readAll (contentOracle content) callIdx stat out =
      ({stat with offset := stat.size},
       .ok (out ++ ((content.drop stat.offset).take (stat.size - stat.offset)))) :=
  readAllF_content content _ callIdx stat out h1 h2 (le_refl _)

/-- Witness for readAll_full_delta: a file of three bytes read from offset
0 yields all three bytes and leaves the offset at the size. -/
theorem readAll_full_delta_witness :
    readAll (contentOracle [3, 1, 4]) 0 ⟨3, 0, 0⟩ [] =
      (⟨3, 0, 3⟩, .ok [3, 1, 4]) := by
  have h := readAll_full_delta [3, 1, 4] 0 ⟨3, 0, 0⟩ [] (by decide) (by decide)
  simpa using h

/-- C8: whatever the consumer callback does — including raising an
exception, which the monitor catches in its try block — the cycle's
per-path stats, its batch, the single callback invocation, and the
scheduling of the next cycle are exactly as they would be had the
callback returned normally; only the record of the caught exception can
differ. -/
theorem callback_exception_isolated (fsStat : String → StatResult)
    (fsO : String → Except Unit ReadOracle) (logs : List String)
    (stats : List (String × FileStat))
    (cb cb' : List (String × List Nat) → Except Unit Unit) :
    (runCycle fsStat fsO (some cb) logs stats).stats =
      (runCycle fsStat fsO (some cb') logs stats).stats ∧
    (runCycle fsStat fsO (some cb) logs stats).batch =
      (runCycle fsStat fsO (some cb') logs stats).batch ∧
    (runCycle fsStat fsO (some cb) logs stats).callbackCount =
      (runCycle fsStat fsO (some cb') logs stats).callbackCount ∧
    (runCycle fsStat fsO (some cb) logs stats).nextScheduled = true := by
  simp only [runCycle]
  by_cases h : (detectAll fsStat logs stats).2.isEmpty
  · simp [h]
  · simp only [h, Bool.false_eq_true, if_false, ite_false]
    cases hcb : cb (scanLogs fsO (detectAll fsStat logs stats).2
        (detectAll fsStat logs stats).1 []).2 <;>
      cases hcb' : cb' (scanLogs fsO (detectAll fsStat logs stats).2
        (detectAll fsStat logs stats).1 []).2 <;>
      simp [hcb, hcb']

/-- C6 amended: in a cycle in which no watched path changed, the result
callback is not invoked and the next cycle is scheduled immediately; in a
cycle with at least one changed path, the callback is invoked exactly once
after the read phase completes, with the batch scanLogs produced — which
may be empty when every changed file's open or read fails — and the next
cycle is then scheduled. -/
theorem cycle_callback_behavior (fsStat : String → StatResult)
    (fsO : String → Except Unit ReadOracle)
    (cb : List (String × List Nat) → Except Unit Unit)
    (logs : List String) (stats stats1 : List (String × FileStat))
    (changed : List String)
    (hdet : detectAll fsStat logs stats = (stats1, changed)) :
    (changed = [] →
      runCycle fsStat fsO (some cb) logs stats = ⟨stats1, 0, false, none, true⟩) ∧
    (changed ≠ [] →
      (runCycle fsStat fsO (some cb) logs stats).callbackCount = 1 ∧
      (runCycle fsStat fsO (some cb) logs stats).nextScheduled = true ∧
      (runCycle fsStat fsO (some cb) logs stats).batch =
        some (scanLogs fsO changed stats1 []).2) := by
  constructor
  · intro h
    subst h
    simp [runCycle, hdet]
  · intro h
    have hne : changed.isEmpty = false := by
      cases changed with
      | nil => exact absurd rfl h
      | cons c cs => rfl
    simp only [runCycle, hdet, hne, Bool.false_eq_true, if_false, ite_false]
    cases hcb : cb (scanLogs fsO changed stats1 []).2 <;> simp [hcb]

/-- Witness for cycle_callback_behavior: with one watched path whose stat
fails, nothing changes and the cycle returns without invoking the
callback; with one watched path that grew but fails to open, the callback
is invoked exactly once. -/
theorem cycle_callback_behavior_witness :
    runCycle (fun _ => .statError) (fun _ => .error ())
        (some fun _ => .ok ()) ["a"] [] = ⟨[], 0, false, none, true⟩ ∧
    (runCycle (fun _ => .ok 1 0) (fun _ => .error ())
        (some fun _ => .ok ()) ["a"] []).callbackCount = 1 := by
  constructor
  · exact (cycle_callback_behavior (fun _ => .statError) (fun _ => .error ())
      (fun _ => .ok ()) ["a"] [] [] [] rfl).1 rfl
  · exact ((cycle_callback_behavior (fun _ => .ok 1 0) (fun _ => .error ())
      (fun _ => .ok ()) ["a"] [] [("a", ⟨1, 0, 0⟩)] ["a"] rfl).2
      (by simp)).1

/-- C6 counterexample: a cycle with one changed path whose open fails does
invoke the callback — exactly once — with an empty batch, refuting the
claim that the callback is never invoked with an empty batch. -/
theorem callback_empty_batch_cex :
    (runCycle (fun _ => .ok 1 0) (fun _ => .error ())
        (some fun _ => .ok ()) ["a"] []).callbackCount = 1 ∧
    (runCycle (fun _ => .ok 1 0) (fun _ => .error ())
        (some fun _ => .ok ()) ["a"] []).batch = some [] := by decide

/-- C1 amended: when, of two changed watched files, the first fails to
open, the read phase still produces a batch containing the other file's
new content, and the failing file's stored state is exactly what detection
left there — in particular its offset is not advanced by the read phase.
(Its stored size and modifiedTime were already updated at detection time;
see the counterexample.) -/
theorem scan_open_fail_offset_preserved
    (fsO : String → Except Unit ReadOracle) (a b : String)
    (sa sb sb' : FileStat) (oracle : ReadOracle) (out : List Nat)
    (hab : a ≠ b)
    (ha : fsO a = .error ())
    (hb : fsO b = .ok oracle)
    (hread : readAll oracle 0 sb [] = (sb', .ok out)) :
    scanLogs fsO [a, b] [(a, sa), (b, sb)] [] =
      ([(a, sa), (b, sb')], [(b, out)]) := by
  simp [scanLogs, lookup, update, ha, hb, hread, hab]

/-- Witness for scan_open_fail_offset_preserved: file "a" fails to open,
file "b" has one new byte; the batch carries "b"'s byte and "a"'s stored
state is untouched by the read phase. -/
theorem scan_open_fail_offset_preserved_witness :
    scanLogs (fun p => if p = "a" then .error () else .ok (contentOracle [9]))
        ["a", "b"] [("a", ⟨2, 0, 1⟩), ("b", ⟨1, 0, 0⟩)] [] =
      ([("a", ⟨2, 0, 1⟩), ("b", ⟨1, 0, 1⟩)], [("b", [9])]) := by
  exact scan_open_fail_offset_preserved
    (fun p => if p = "a" then .error () else .ok (contentOracle [9]))
    "a" "b" ⟨2, 0, 1⟩ ⟨1, 0, 0⟩ ⟨1, 0, 1⟩ (contentOracle [9]) [9]
    (by decide) rfl rfl rfl

/-- C1 counterexample: two watched files both grow; "a" fails to open, "b"
is read fine.  The callback gets the batch with "b"'s content, but "a"'s
stored state after the cycle is (size 2, mtime 1, offset 1) — its size and
modifiedTime were updated at detection time — and is no longer the
pre-cycle (size 1, mtime 0, offset 1); consequently a next cycle in which
"a" is unchanged on disk skips it instead of retrying it. -/
theorem scan_open_fail_state_not_preserved_cex :
    lookup [("a", (⟨1, 0, 1⟩ : FileStat)), ("b", ⟨1, 0, 1⟩)] "a" =
      some ⟨1, 0, 1⟩ ∧
    (runCycle (fun _ => .ok 2 1)
        (fun p => if p = "a" then .error () else .ok (contentOracle [5, 6]))
        (some fun _ => .ok ())
        ["a", "b"] [("a", ⟨1, 0, 1⟩), ("b", ⟨1, 0, 1⟩)]).batch =
      some [("b", [6])] ∧
    lookup (runCycle (fun _ => .ok 2 1)
        (fun p => if p = "a" then .error () else .ok (contentOracle [5, 6]))
        (some fun _ => .ok ())
        ["a", "b"] [("a", ⟨1, 0, 1⟩), ("b", ⟨1, 0, 1⟩)]).stats "a" =
      some ⟨2, 1, 1⟩ ∧
    (⟨2, 1, 1⟩ : FileStat) ≠ ⟨1, 0, 1⟩ ∧
    (detectAll (fun _ => .ok 2 1) ["a"]
      (runCycle (fun _ => .ok 2 1)
        (fun p => if p = "a" then .error () else .ok (contentOracle [5, 6]))
        (some fun _ => .ok ())
        ["a", "b"] [("a", ⟨1, 0, 1⟩), ("b", ⟨1, 0, 1⟩)]).stats).2 = [] := by
  decide

/-- Total byte count of a sequence of chunk reads. -/
def chunksTotal (chunks : List (List Nat)) : Nat :=
  (chunks.map List.length).sum

/-- A sequence of chunk reads fits the readAll loop from a given state:
each chunk is non-empty and no longer than the capped request the loop
issues at that point, with the offset advancing by each chunk in turn. -/
def chunksFit : FileStat → List (List Nat) → Prop
  | _, [] => True
  | stat, c :: cs =>
    c ≠ [] ∧ c.length ≤ min (stat.size - stat.offset) MAX_FILE_READ_SIZE ∧
      chunksFit {stat with offset := stat.offset + c.length} cs

/-- Chunked-read loop whose reads succeed for a sequence of fitting chunks
and then fail while delta remains: it reports the error, with the offset
already advanced by the total bytes of the successful chunks. -/
theorem readAllF_chunks_err :
    ∀ (chunks : List (List Nat)) (oracle : ReadOracle) (i fuel : Nat)
      (stat : FileStat) (out : List Nat),
      (∀ j pos req, j < chunks.length → oracle (i + j) pos req = .ok (chunks.getD j [])) →
      (∀ pos req, oracle (i + chunks.length) pos req = .error ()) →
      chunksFit stat chunks →
      stat.offset + chunksTotal chunks < stat.size →
      stat.size - stat.offset ≤ fuel →
      readAllF oracle fuel i stat out =
        ({stat with offset := stat.offset + chunksTotal chunks}, .error ()) := by
  intro chunks
  induction chunks with
  | nil =>
    intro oracle i fuel stat out hok herr hfit hlt hfuel
    simp only [chunksTotal, List.map_nil, List.sum_nil, Nat.add_zero] at hlt ⊢
    cases fuel with
    | zero => exfalso; omega
    | succ fuel =>
      rw [readAllF]
      have hd : ¬(stat.size - stat.offset = 0) := by omega
      simp only [hd, if_false, ite_false]
      have he : oracle i stat.offset
          (min (stat.size - stat.offset) MAX_FILE_READ_SIZE) = .error () := by
        have := herr stat.offset (min (stat.size - stat.offset) MAX_FILE_READ_SIZE)
        simpa using this
      rw [he]
  | cons c cs ih =>
    intro oracle i fuel stat out hok herr hfit hlt hfuel
    obtain ⟨hc, hcle, hfit'⟩ := hfit
    have hclen : 0 < c.length := List.length_pos.mpr hc
    have htot : chunksTotal (c :: cs) = c.length + chunksTotal cs := by
      simp [chunksTotal]
    rw [htot] at hlt ⊢
    cases fuel with
    | zero => exfalso; omega
    | succ fuel =>
      rw [readAllF]
      have hd : ¬(stat.size - stat.offset = 0) := by omega
      simp only [hd, if_false, ite_false]
      have h0 : oracle i stat.offset
          (min (stat.size - stat.offset) MAX_FILE_READ_SIZE) = .ok c := by
        have := hok 0 stat.offset
          (min (stat.size - stat.offset) MAX_FILE_READ_SIZE) (by simp)
        simpa using this
      rw [h0]
      simp only []
      rw [List.take_of_length_le hcle]
      rw [if_neg (by omega : ¬(c.length = 0))]
      rw [ih oracle (i + 1) fuel {stat with offset := stat.offset + c.length}
        (out ++ (c ++ List.replicate
          (min (stat.size - stat.offset) MAX_FILE_READ_SIZE - c.length) 0))
        (by
          intro j pos req hj
          have := hok (j + 1) pos req (by simpa using Nat.succ_lt_succ hj)
          have harg : i + (j + 1) = i + 1 + j := by omega
          rw [harg] at this
          simpa using this)
        (by
          intro pos req
          have := herr pos req
          have harg : i + (c :: cs).length = i + 1 + cs.length := by
            simp; omega
          rw [harg] at this
          exact this)
        hfit'
        (by simp; omega)
        (by simp; omega)]
      simp only [Prod.mk.injEq]
      refine ⟨?_, trivial⟩
      congr 1
      omega

/-- C9: when, while reading a changed file's delta, a chunk read fails
after some chunks have already been read successfully, the path is
omitted from the cycle's batch — the files object is left untouched — yet
the stored offset has been advanced by the total bytes of the successful
chunks, so those bytes are never delivered in any batch. -/
theorem read_fail_advances_offset_drops_output
    (fsO : String → Except Unit ReadOracle) (log : String) (stat : FileStat)
    (chunks : List (List Nat)) (oracle : ReadOracle)
    (files : List (String × List Nat))
    (hopen : fsO log = .ok oracle)
    (hok : ∀ j pos req, j < chunks.length →
      oracle j pos req = .ok (chunks.getD j []))
    (herr : ∀ pos req, oracle chunks.length pos req = .error ())
    (hfit : chunksFit stat chunks)
    (hlt : stat.offset + chunksTotal chunks < stat.size) :
    scanLogs fsO [log] [(log, stat)] files =
      ([(log, {stat with offset := stat.offset + chunksTotal chunks})], files) := by
  have hread : readAll oracle 0 stat [] =
      ({stat with offset := stat.offset + chunksTotal chunks}, .error ()) := by
    unfold readAll
    exact readAllF_chunks_err chunks oracle 0 _ stat []
      (by intro j pos req hj; simpa using hok j pos req hj)
      (by intro pos req; simpa using herr pos req)
      hfit hlt (le_refl _)
  simp [scanLogs, lookup, update, hopen, hread]

/-- Witness for read_fail_advances_offset_drops_output: a file with 3
unread bytes whose first read yields 1 byte and whose second read fails
ends with offset advanced to 1 yet contributes nothing to the batch. -/
theorem read_fail_advances_offset_drops_output_witness :
    scanLogs (fun _ => .ok (fun i _ _ => if i = 0 then .ok [7] else .error ()))
        ["a"] [("a", ⟨3, 0, 0⟩)] [] = ([("a", ⟨3, 0, 1⟩)], []) := by
  have h := read_fail_advances_offset_drops_output
    (fun _ => .ok (fun i _ _ => if i = 0 then .ok [7] else .error ()))
    "a" ⟨3, 0, 0⟩ [[7]] (fun i _ _ => if i = 0 then .ok [7] else .error ()) []
    rfl
    (by
      intro j pos req hj
      have hj0 : j = 0 := by simpa using hj
      subst hj0
      rfl)
    (by intro pos req; rfl)
    (by simp [chunksFit, MAX_FILE_READ_SIZE])
    (by simp [chunksTotal])
  simpa [chunksTotal] using h

end Misaka
